import Mathlib

/-!
Verification of the drugBankDrugMap converter (src/drugBankParser.py).

The program reads a DrugBank XML document, extracts per drug record a
generic name and a set of product (brand) names, lowercases them, and
writes one CSV row per (brand_name, generic_name) pair after a fixed
header.  We shallowly embed the ElementTree operations used by the code
(find, findall, .text), the Python exception behaviour of the two
try/except blocks in parseDrug, and the record loop of parseFile.
-/

namespace DrugBank

/-- An XML element as exposed by Python's xml.etree.ElementTree: a tag
(here always carrying the namespace in Clark notation, as the source
writes it inline), an optional text payload, and a list of children. -/
inductive Element : Type where
  | mk (tag : String) (text : Option String) (children : List Element)

def Element.tag : Element → String
  | .mk t _ _ => t

def Element.text : Element → Option String
  | .mk _ x _ => x

def Element.children : Element → List Element
  | .mk _ _ c => c

/-- ElementTree Element.find: first direct child with the given tag,
or None when there is no such child. -/
def Element.find (e : Element) (t : String) : Option Element :=
  e.children.find? (fun c => c.tag == t)

/-- ElementTree Element.findall: all direct children with the given tag,
in document order. -/
def Element.findall (e : Element) (t : String) : List Element :=
  e.children.filter (fun c => c.tag == t)

mutual

/-- Structural decidable equality for elements. -/
def elemDecEq : (a b : Element) → Decidable (a = b)
  | .mk t1 x1 c1, .mk t2 x2 c2 =>
    match decEq t1 t2 with
    | isFalse h => isFalse (by intro he; cases he; exact h rfl)
    | isTrue h1 =>
      match decEq x1 x2 with
      | isFalse h => isFalse (by intro he; cases he; exact h rfl)
      | isTrue h2 =>
        match elemListDecEq c1 c2 with
        | isFalse h => isFalse (by intro he; cases he; exact h rfl)
        | isTrue h3 => isTrue (by rw [h1, h2, h3])

/-- Structural decidable equality for lists of elements. -/
def elemListDecEq : (a b : List Element) → Decidable (a = b)
  | [], [] => isTrue rfl
  | [], _ :: _ => isFalse (by intro h; cases h)
  | _ :: _, [] => isFalse (by intro h; cases h)
  | a :: as, b :: bs =>
    match elemDecEq a b with
    | isFalse h => isFalse (by intro he; cases he; exact h rfl)
    | isTrue h1 =>
      match elemListDecEq as bs with
      | isFalse h => isFalse (by intro he; cases he; exact h rfl)
      | isTrue h2 => isTrue (by rw [h1, h2])

end

instance : DecidableEq Element := elemDecEq

/-- The namespaced tag the source uses for name elements:
"{http://www.drugbank.ca}name". -/
def nsName : String := "\x7bhttp://www.drugbank.ca\x7dname"

/-- The namespaced tag for the products container. -/
def nsProducts : String := "\x7bhttp://www.drugbank.ca\x7dproducts"

/-- The namespaced tag for a single product element. -/
def nsProduct : String := "\x7bhttp://www.drugbank.ca\x7dproduct"

/-- Python's str.lower as the source applies it to element text:
every character is lowercased independently (on the ASCII names of the
dataset this agrees with Unicode lowercasing). -/
def pyLower (s : String) : String :=
  ⟨s.data.map Char.toLower⟩

/-- The Python exceptions that the expressions in parseDrug can raise.
Attribute access on None (None.text, None.findall, None.lower) raises
AttributeError; KeyError is listed because the source names it in an
except clause. -/
inductive PyError : Type where
  | attributeError
  | keyError
deriving DecidableEq

/-- The condensed representation parseDrug builds: the dict with keys
generic_name and brand_names (a Python set, modelled as a Finset). -/
structure DrugMapping : Type where
  generic_name : String
  brand_names : Finset String
deriving DecidableEq

/-- Outcome of parseDrug on one record.  exitGenericName is the bare
except branch (prints the generic-name diagnostic, then exit());
exitBrandName is the except-KeyError branch (prints the brand-name
diagnostic, then exit()); uncaught is an exception no handler catches,
which propagates and aborts the whole process with a traceback. -/
inductive PDResult : Type where
  | ok (m : DrugMapping)
  | exitGenericName
  | exitBrandName
  | uncaught (e : PyError)
deriving DecidableEq

def PDResult.isOk : PDResult → Bool
  | .ok _ => true
  | _ => false

/-- Evaluation of drugData.find(nsName).text.lower(): find never raises,
but .text on None and .lower on None raise AttributeError. -/
def getGenericName (drugData : Element) : Except PyError String :=
  match drugData.find nsName with
  | none => .error .attributeError
  | some nameEl =>
    match nameEl.text with
    | none => .error .attributeError
    | some t => .ok (pyLower t)

/-- Evaluation of the loop body over products.findall: for each product,
product.find(nsName).text.lower() is added to the set; a product whose
name child is absent, or whose name element has no text, raises
AttributeError at that point. -/
def addBrandNames (acc : Finset String) : List Element → Except PyError (Finset String)
  | [] => .ok acc
  | product :: rest =>
    match product.find nsName with
    | none => .error .attributeError
    | some nameEl =>
      match nameEl.text with
      | none => .error .attributeError
      | some t => addBrandNames (insert (pyLower t) acc) rest

/-- Evaluation of the brand-name try block: products = find(nsProducts);
when the container is absent, products is None and products.findall
raises AttributeError; otherwise the products are folded into the set. -/
def getBrandNames (drugData : Element) : Except PyError (Finset String) :=
  match drugData.find nsProducts with
  | none => .error .attributeError
  | some products => addBrandNames ∅ (products.findall nsProduct)

/-- parseDrug from src/drugBankParser.py.  The generic-name block uses a
bare except, so any failure there lands in exitGenericName.  The
brand-name block is guarded by except KeyError only: a KeyError would
land in exitBrandName, every other exception propagates uncaught. -/
def parseDrug (drugData : Element) : PDResult :=
  match getGenericName drugData with
  | .error _ => .exitGenericName
  | .ok g =>
    match getBrandNames drugData with
    | .error .keyError => .exitBrandName
    | .error e => .uncaught e
    | .ok bs => .ok ⟨g, bs⟩

/-- How a run of parseFile stops early: the two exit() branches of
parseDrug (each preceded by its printed diagnostic), or an exception no
handler catches, which aborts the interpreter with a traceback. -/
inductive Halt : Type where
  | exitGeneric
  | exitBrand
  | uncaughtErr (e : PyError)
deriving DecidableEq

/-- An output row, in the column order of the CSV: (brand_name,
generic_name). -/
abbrev Row : Type := String × String

/-- The rows the loop body of parseFile writes for one successfully
parsed record: one row per element of its brand-name set, each pairing
that brand name with the record's generic name. -/
def recordRows (m : DrugMapping) : Finset Row :=
  m.brand_names.image (fun b => (b, m.generic_name))

/-- State of a run of the record loop: the row sets written so far, one
entry per processed record in document order, and how the loop ended
(none when every record was processed). -/
structure RunState : Type where
  rows : List (Finset Row)
  halt : Option Halt
deriving DecidableEq

/-- The record loop of parseFile: for drug in root, parseDrug the
record, then write one row per brand name in its set before moving to
the next record.  An exit or an uncaught exception stops the loop at
that record; rows already written for earlier records remain. -/
def processDrugs : List Element → RunState
  | [] => ⟨[], none⟩
  | d :: ds =>
    match parseDrug d with
    | .ok m =>
      let r := processDrugs ds
      ⟨recordRows m :: r.rows, r.halt⟩
    | .exitGenericName => ⟨[], some .exitGeneric⟩
    | .exitBrandName => ⟨[], some .exitBrand⟩
    | .uncaught e => ⟨[], some (.uncaughtErr e)⟩

/-- Outcome of parseFile: either the ET.parse call failed and the bare
except printed a message naming the input file before exit(), or the
record loop ran. -/
inductive FileResult : Type where
  | parseError (msg : String)
  | ran (st : RunState)
deriving DecidableEq

/-- parseFile from src/drugBankParser.py.  The parsed argument stands
for the outcome of ET.parse(inputFile): none when the file is missing,
unreadable or not well-formed XML, otherwise the list of children of the
document root (the record elements the for loop iterates over). -/
def parseFile (parsed : Option (List Element)) (inputFile : String) : FileResult :=
  match parsed with
  | none => .parseError ("Error: could not read in data from file " ++ inputFile)
  | some drugs => .ran (processDrugs drugs)

/-- Per-record row sets written by a parseFile outcome; empty when the
input could not be parsed (main writes only the header in that case). -/
def fileRows : FileResult → List (Finset Row)
  | .parseError _ => []
  | .ran st => st.rows

/-- The row set one record contributes: empty when parseDrug does not
return (nothing is written for a record that exits or raises). -/
def drugRows (d : Element) : Finset Row :=
  match parseDrug d with
  | .ok m => recordRows m
  | _ => ∅

/-- A concrete run serializes each record's row set in some order
(Python set iteration order is unspecified).  A trace lists, per record
and in document order, the rows actually written for it: each record's
list enumerates its row set without repetition. -/
def IsTrace (trace : List (List Row)) (sets : List (Finset Row)) : Prop :=
  List.Forall₂ (fun l s => l.Nodup ∧ l.toFinset = s) trace sets

/-- Serialization of one row by csv.DictWriter with fieldnames
[brand_name, generic_name]. -/
def csvRow (r : Row) : String := r.1 ++ "," ++ r.2

/-- The CSV content of a run: the header main writes, then every row of
the trace in order. -/
def csvLines (trace : List (List Row)) : List String :=
  "brand_name,generic_name" :: (trace.flatten.map csvRow)

/-- A drug record with generic name Aspirin and products Bayer and
bayer, the record of the end-to-end example. -/
def aspirinRecord : Element :=
  .mk "drug" none [
    .mk nsName (some "Aspirin") [],
    .mk nsProducts none [
      .mk nsProduct none [.mk nsName (some "Bayer") []],
      .mk nsProduct none [.mk nsName (some "bayer") []] ] ]

/-- A record with a readable generic name but no products container
child at all. -/
def noContainerRecord : Element :=
  .mk "drug" none [.mk nsName (some "Aspirin") []]

/-- A record with a readable generic name and a present but empty
products container. -/
def emptyContainerRecord : Element :=
  .mk "drug" none [.mk nsName (some "Tylenol") [], .mk nsProducts none []]

/-- A record with no name child under the DrugBank namespace. -/
def noNameRecord : Element :=
  .mk "drug" none [.mk "name" (some "Aspirin") []]

/-- A product element whose name child is present and readable. -/
def bayerProduct : Element := .mk nsProduct none [.mk nsName (some "Bayer") []]

/-- A product element with no name child: product.find returns None and
the subsequent .text access raises AttributeError. -/
def namelessProduct : Element := .mk nsProduct none []

/-- A second readable product element. -/
def advilProduct : Element := .mk nsProduct none [.mk nsName (some "Advil") []]

/-- The products container holding a readable product, a nameless one,
and another readable one after it. -/
def mixedContainer : Element :=
  .mk nsProducts none [bayerProduct, namelessProduct, advilProduct]

/-- A record whose products container holds a product without a name
between two readable products. -/
def badProductRecord : Element :=
  .mk "drug" none [.mk nsName (some "Aspirin") [], mixedContainer]

/-- A record with generic name Ibuprofen and the two distinct products
Advil and Motrin. -/
def ibuprofenRecord : Element :=
  .mk "drug" none [
    .mk nsName (some "Ibuprofen") [],
    .mk nsProducts none [
      advilProduct,
      .mk nsProduct none [.mk nsName (some "Motrin") []] ] ]

theorem addBrandNames_ne_keyError (ps : List Element) (acc : Finset String) :
    addBrandNames acc ps ≠ Except.error PyError.keyError := by
  induction ps generalizing acc with
  | nil => simp [addBrandNames]
  | cons p rest ih =>
    simp only [addBrandNames]
    split
    · simp
    · split
      · simp
      · exact ih _

theorem getBrandNames_ne_keyError (d : Element) :
    getBrandNames d ≠ Except.error PyError.keyError := by
  unfold getBrandNames
  cases hf : d.find nsProducts with
  | none => simp
  | some products => exact addBrandNames_ne_keyError _ _

/-- C9: the except-KeyError handler in the brand-name block of parseDrug
is dead code: no expression of the try block can produce a KeyError, so
the branch printing the brand-name diagnostic and exiting is never taken
on any record. -/
theorem c9_keyError_handler_dead (drugData : Element) :
    getBrandNames drugData ≠ Except.error PyError.keyError ∧
    parseDrug drugData ≠ PDResult.exitBrandName := by
  refine ⟨getBrandNames_ne_keyError drugData, ?_⟩
  unfold parseDrug
  cases hg : getGenericName drugData with
  | error e => simp
  | ok g =>
    cases hb : getBrandNames drugData with
    | error e =>
      cases e with
      | attributeError => simp
      | keyError => exact absurd hb (getBrandNames_ne_keyError drugData)
    | ok bs => simp

/-- C1: code evaluated at the failing input.  On a record whose products
container is absent, parseDrug raises an uncaught AttributeError
(products is None, so products.findall raises): the run halts at once,
no row is emitted for the record and no further record is processed, but
the branch that would print the diagnostic identifying the field is
never reached, so no such diagnostic is printed. -/
theorem c1_missing_container_halts_without_diagnostic :
    parseDrug noContainerRecord = PDResult.uncaught PyError.attributeError ∧
    parseDrug noContainerRecord ≠ PDResult.exitBrandName ∧
    processDrugs [noContainerRecord, aspirinRecord] =
      ⟨[], some (Halt.uncaughtErr PyError.attributeError)⟩ := by
  decide

/-- C2 counterexample: on a record whose products container holds a
product without a readable name between two readable products, the bad
product is not skipped and no mapping is returned: parseDrug raises an
uncaught AttributeError, no row is written for the record, and the
following record is never processed. -/
theorem c2_bad_product_not_skipped :
    parseDrug badProductRecord = PDResult.uncaught PyError.attributeError ∧
    (parseDrug badProductRecord).isOk = false ∧
    processDrugs [badProductRecord, aspirinRecord] =
      ⟨[], some (Halt.uncaughtErr PyError.attributeError)⟩ := by
  decide

theorem addBrandNames_error_of_bad (ps : List Element) (acc : Finset String)
    (h : ∃ p ∈ ps, (p.find nsName).bind Element.text = none) :
    addBrandNames acc ps = Except.error PyError.attributeError := by
  induction ps generalizing acc with
  | nil => simp at h
  | cons p rest ih =>
    rcases h with ⟨q, hq, hbad⟩
    rcases List.mem_cons.mp hq with rfl | hq2
    · simp only [addBrandNames]
      split
      · rfl
      · next nameEl heq =>
        rw [heq] at hbad
        have hbad2 : nameEl.text = none := hbad
        split
        · rfl
        · next t heq2 => rw [hbad2] at heq2; cases heq2
    · simp only [addBrandNames]
      split
      · rfl
      · split
        · rfl
        · exact ih _ ⟨q, hq2, hbad⟩

theorem getGenericName_ok_of_bind (d : Element) (g : String)
    (hg : (d.find nsName).bind Element.text = some g) :
    getGenericName d = Except.ok (pyLower g) := by
  unfold getGenericName
  split
  · next heq => rw [heq] at hg; cases hg
  · next nameEl heq =>
    rw [heq] at hg
    have hg2 : nameEl.text = some g := hg
    split
    · next heq2 => rw [hg2] at heq2; cases heq2
    · next t heq2 =>
      rw [hg2] at heq2
      injection heq2 with h3
      subst h3
      rfl

/-- C2 amended: when the products container is present and the generic
name is readable but some product child's name field is missing or has
no text, that product is not skipped and the record's mapping is not
returned: parseDrug raises an uncaught AttributeError, which halts the
whole run. -/
theorem c2_amended_bad_product_uncaught (d products : Element) (g : String)
    (hg : (d.find nsName).bind Element.text = some g)
    (hp : d.find nsProducts = some products)
    (hbad : ∃ p ∈ products.findall nsProduct, (p.find nsName).bind Element.text = none) :
    parseDrug d = PDResult.uncaught PyError.attributeError := by
  have h1 := getGenericName_ok_of_bind d g hg
  have h2 : getBrandNames d = Except.error PyError.attributeError := by
    unfold getBrandNames
    rw [hp]
    exact addBrandNames_error_of_bad _ _ hbad
  unfold parseDrug
  rw [h1, h2]

/-- Witness for the amended C2 at the concrete bad-product record. -/
theorem c2_amended_bad_product_uncaught_witness :
    parseDrug badProductRecord = PDResult.uncaught PyError.attributeError :=
  c2_amended_bad_product_uncaught badProductRecord mixedContainer "Aspirin"
    (by decide) (by decide) ⟨namelessProduct, by decide, by decide⟩

theorem parseDrug_ok_inv (d : Element) (m : DrugMapping)
    (h : parseDrug d = PDResult.ok m) :
    getGenericName d = Except.ok m.generic_name ∧
    getBrandNames d = Except.ok m.brand_names := by
  revert h
  unfold parseDrug
  split
  · intro h; cases h
  · next g hg =>
    split
    · intro h; cases h
    · intro h; cases h
    · next bs hb =>
      intro h
      cases h
      exact ⟨hg, hb⟩

theorem addBrandNames_mem (ps : List Element) (acc bs : Finset String)
    (h : addBrandNames acc ps = Except.ok bs) :
    ∀ b ∈ bs, b ∈ acc ∨ ∃ p ∈ ps, ∃ nameEl t, p.find nsName = some nameEl ∧
      nameEl.text = some t ∧ b = pyLower t := by
  induction ps generalizing acc with
  | nil =>
    intro b hb
    simp only [addBrandNames] at h
    injection h with h2
    subst h2
    exact Or.inl hb
  | cons p rest ih =>
    intro b hb
    revert h
    simp only [addBrandNames]
    split
    · intro h; cases h
    · next nameEl heq =>
      split
      · intro h; cases h
      · next t heq2 =>
        intro h
        rcases ih _ h b hb with hacc | ⟨q, hq, res⟩
        · rcases Finset.mem_insert.mp hacc with hbq | hacc2
          · exact Or.inr ⟨p, List.mem_cons_self p rest, nameEl, t, heq, heq2, hbq⟩
          · exact Or.inl hacc2
        · exact Or.inr ⟨q, List.mem_cons_of_mem p hq, res⟩

/-- C4: lowercasing.  For every record parseDrug condenses successfully,
every row emitted for it pairs a generic_name equal to pyLower of the
text of the record's name field with a brand_name equal to pyLower of
the text of some product's name field; no other transformation is
applied to either string. -/
theorem c4_lowercasing (d : Element) (m : DrugMapping)
    (h : parseDrug d = PDResult.ok m) :
    ∀ r ∈ recordRows m,
      (∃ nameEl t, d.find nsName = some nameEl ∧ nameEl.text = some t ∧
        r.2 = pyLower t) ∧
      (∃ products p nameEl t, d.find nsProducts = some products ∧
        p ∈ products.findall nsProduct ∧ p.find nsName = some nameEl ∧
        nameEl.text = some t ∧ r.1 = pyLower t) := by
  obtain ⟨hg, hb⟩ := parseDrug_ok_inv d m h
  intro r hr
  rcases Finset.mem_image.mp hr with ⟨b, hbmem, hbr⟩
  subst hbr
  refine ⟨?_, ?_⟩
  · revert hg
    unfold getGenericName
    split
    · intro hg; cases hg
    · next nameEl heq =>
      split
      · intro hg; cases hg
      · next t heq2 =>
        intro hg
        injection hg with h4
        exact ⟨nameEl, t, heq, heq2, h4.symm⟩
  · revert hb
    unfold getBrandNames
    split
    · intro hb; cases hb
    · next products heq =>
      intro hb
      rcases addBrandNames_mem _ _ _ hb b hbmem with h0 | ⟨p, hp, nameEl, t, hf, ht, hbt⟩
      · exact absurd h0 (Finset.not_mem_empty b)
      · exact ⟨products, p, nameEl, t, heq, hp, hf, ht, hbt⟩

/-- Witness for C4 at the Aspirin record and its single output row. -/
theorem c4_lowercasing_witness :
    (∃ nameEl t, aspirinRecord.find nsName = some nameEl ∧
      nameEl.text = some t ∧ (("bayer", "aspirin") : Row).2 = pyLower t) ∧
    (∃ products p nameEl t, aspirinRecord.find nsProducts = some products ∧
      p ∈ products.findall nsProduct ∧ p.find nsName = some nameEl ∧
      nameEl.text = some t ∧ (("bayer", "aspirin") : Row).1 = pyLower t) :=
  c4_lowercasing aspirinRecord ⟨"aspirin", {"bayer"}⟩ (by decide)
    ("bayer", "aspirin") (by decide)

/-- C3 counterexample: a record with a readable generic name but no
products container does halt the run: no row set is recorded for it and
the following record is never processed, refuting the no-halt claim for
the container-absent half of the statement. -/
theorem c3_no_container_halts :
    (processDrugs [noContainerRecord, aspirinRecord]).halt ≠ none ∧
    (processDrugs [noContainerRecord, aspirinRecord]).rows = [] := by
  decide

theorem parseDrug_exitGeneric_of_unreadable (d : Element)
    (h : (d.find nsName).bind Element.text = none) :
    parseDrug d = PDResult.exitGenericName := by
  have h1 : getGenericName d = Except.error PyError.attributeError := by
    unfold getGenericName
    split
    · rfl
    · next nameEl heq =>
      rw [heq] at h
      have h2 : nameEl.text = none := h
      split
      · rfl
      · next t heq2 => rw [h2] at heq2; cases heq2
  unfold parseDrug
  rw [h1]

/-- C3 amended: a record with a readable generic name and a present but
empty products container contributes an empty row set and the run
continues with the remaining records unchanged; a record with no
products container at all instead halts the run with an uncaught
error. -/
theorem c3_amended_empty_container_continues (d products : Element) (g : String)
    (rest : List Element)
    (hg : (d.find nsName).bind Element.text = some g)
    (hp : d.find nsProducts = some products)
    (hempty : products.findall nsProduct = []) :
    parseDrug d = PDResult.ok ⟨pyLower g, ∅⟩ ∧
    drugRows d = ∅ ∧
    processDrugs (d :: rest) =
      ⟨(∅ : Finset Row) :: (processDrugs rest).rows, (processDrugs rest).halt⟩ := by
  have h1 := getGenericName_ok_of_bind d g hg
  have h2 : getBrandNames d = Except.ok (∅ : Finset String) := by
    unfold getBrandNames
    rw [hp]
    show addBrandNames ∅ (products.findall nsProduct) = Except.ok ∅
    rw [hempty]
    rfl
  have h3 : parseDrug d = PDResult.ok ⟨pyLower g, ∅⟩ := by
    unfold parseDrug
    rw [h1, h2]
  refine ⟨h3, ?_, ?_⟩
  · unfold drugRows
    rw [h3]
    simp [recordRows]
  · simp only [processDrugs]
    rw [h3]
    simp [recordRows]

/-- Witness for the amended C3 on a concrete empty-container record
followed by a further record that is still processed. -/
theorem c3_amended_empty_container_continues_witness :
    parseDrug emptyContainerRecord = PDResult.ok ⟨pyLower "Tylenol", ∅⟩ ∧
    drugRows emptyContainerRecord = ∅ ∧
    processDrugs [emptyContainerRecord, aspirinRecord] =
      ⟨(∅ : Finset Row) :: (processDrugs [aspirinRecord]).rows,
        (processDrugs [aspirinRecord]).halt⟩ :=
  c3_amended_empty_container_continues emptyContainerRecord
    (Element.mk nsProducts none []) "Tylenol" [aspirinRecord]
    (by decide) (by decide) (by decide)

theorem isOk_exists_ok (p : PDResult) (h : p.isOk = true) :
    ∃ m, p = PDResult.ok m := by
  cases p with
  | ok m => exact ⟨m, rfl⟩
  | exitGenericName => simp [PDResult.isOk] at h
  | exitBrandName => simp [PDResult.isOk] at h
  | uncaught e => simp [PDResult.isOk] at h

/-- C6: a record lacking a discoverable generic-name field makes the run
print the generic-name diagnostic and stop (the exitGeneric halt): the
row sets of the earlier records remain, no row set is recorded for the
bad record, and no later record is processed. -/
theorem c6_missing_generic_name_fatal (pre : List Element) (bad : Element)
    (post : List Element)
    (hpre : ∀ d ∈ pre, (parseDrug d).isOk = true)
    (hbad : (bad.find nsName).bind Element.text = none) :
    processDrugs (pre ++ bad :: post) =
      ⟨pre.map drugRows, some Halt.exitGeneric⟩ := by
  induction pre with
  | nil =>
    simp only [List.nil_append, List.map_nil]
    simp only [processDrugs]
    rw [parseDrug_exitGeneric_of_unreadable bad hbad]
  | cons d rest ih =>
    have hd := hpre d (List.mem_cons_self d rest)
    have hih := ih (fun x hx => hpre x (List.mem_cons_of_mem d hx))
    obtain ⟨m, hm⟩ := isOk_exists_ok _ hd
    have step : processDrugs (d :: (rest ++ bad :: post)) =
        ⟨recordRows m :: (processDrugs (rest ++ bad :: post)).rows,
          (processDrugs (rest ++ bad :: post)).halt⟩ := by
      simp only [processDrugs]
      rw [hm]
    have hdr : drugRows d = recordRows m := by
      unfold drugRows
      rw [hm]
    rw [List.cons_append, List.map_cons, step, hih, hdr]

/-- Witness for C6: one good record, then a record without a DrugBank
namespaced name child, then a further record; the run stops at the bad
record and keeps the good record's rows. -/
theorem c6_missing_generic_name_fatal_witness :
    processDrugs ([aspirinRecord] ++ noNameRecord :: [ibuprofenRecord]) =
      ⟨[aspirinRecord].map drugRows, some Halt.exitGeneric⟩ :=
  c6_missing_generic_name_fatal [aspirinRecord] noNameRecord [ibuprofenRecord]
    (by decide) (by decide)

theorem addBrandNames_cons_ok (p : Element) (rest : List Element)
    (acc : Finset String) (nameEl : Element) (t : String)
    (hf : p.find nsName = some nameEl) (ht : nameEl.text = some t) :
    addBrandNames acc (p :: rest) = addBrandNames (insert (pyLower t) acc) rest := by
  simp only [addBrandNames]
  split
  · next heq => rw [hf] at heq; cases heq
  · next nameEl2 heq =>
    rw [hf] at heq
    injection heq with heq
    subst heq
    split
    · next heq2 => rw [ht] at heq2; cases heq2
    · next t2 heq2 =>
      rw [ht] at heq2
      injection heq2 with heq2
      subst heq2
      rfl

theorem addBrandNames_ok_of_readable (ps : List Element) (texts : List String)
    (acc : Finset String)
    (h : List.Forall₂ (fun p t => ∃ x, p.find nsName = some x ∧ x.text = some t)
      ps texts) :
    addBrandNames acc ps =
      Except.ok (texts.foldl (fun s t => insert (pyLower t) s) acc) := by
  induction h generalizing acc with
  | nil => rfl
  | cons hpt hrest ih =>
    rcases hpt with ⟨nameEl, hf, ht⟩
    rw [addBrandNames_cons_ok _ _ _ _ _ hf ht, ih, List.foldl_cons]

theorem foldl_insert_pyLower (texts : List String) (acc : Finset String) :
    texts.foldl (fun s t => insert (pyLower t) s) acc =
      acc ∪ (texts.map pyLower).toFinset := by
  induction texts generalizing acc with
  | nil => simp
  | cons t rest ih =>
    rw [List.foldl_cons, ih, List.map_cons, List.toFinset_cons]
    ext b
    simp only [Finset.mem_union, Finset.mem_insert]
    tauto

/-- C5: fan-out cardinality and deduplication.  For a record whose
generic name is readable and whose products all carry readable names,
parseDrug succeeds with the set of case-insensitively distinct
lowercased product names; the record's row set has exactly the
cardinality of that set, each row pairs the lowercased generic name with
one distinct brand name, every distinct brand name yields a row, and any
enumeration of the row set has exactly that many rows, so two products
whose names coincide after lowercasing contribute one row, not two. -/
theorem c5_fanout_dedup (d nameEl products : Element) (g : String)
    (texts : List String)
    (h1 : d.find nsName = some nameEl) (h2 : nameEl.text = some g)
    (h3 : d.find nsProducts = some products)
    (h4 : List.Forall₂ (fun p t => ∃ x, p.find nsName = some x ∧ x.text = some t)
      (products.findall nsProduct) texts) :
    ∃ m, parseDrug d = PDResult.ok m ∧
      m.generic_name = pyLower g ∧
      m.brand_names = (texts.map pyLower).toFinset ∧
      drugRows d = recordRows m ∧
      (recordRows m).card = (texts.map pyLower).toFinset.card ∧
      (∀ r ∈ recordRows m, r.2 = pyLower g ∧ r.1 ∈ (texts.map pyLower).toFinset) ∧
      (∀ b ∈ (texts.map pyLower).toFinset, (b, pyLower g) ∈ recordRows m) ∧
      (∀ l : List Row, l.Nodup → l.toFinset = recordRows m →
        l.length = (texts.map pyLower).toFinset.card) := by
  have hgen : getGenericName d = Except.ok (pyLower g) := by
    apply getGenericName_ok_of_bind
    rw [h1]
    exact h2
  have hbn : getBrandNames d = Except.ok ((texts.map pyLower).toFinset) := by
    unfold getBrandNames
    rw [h3]
    show addBrandNames ∅ (products.findall nsProduct) = _
    rw [addBrandNames_ok_of_readable _ _ _ h4, foldl_insert_pyLower,
      Finset.empty_union]
  have hpd : parseDrug d = PDResult.ok ⟨pyLower g, (texts.map pyLower).toFinset⟩ := by
    unfold parseDrug
    rw [hgen, hbn]
  have hcard : (recordRows ⟨pyLower g, (texts.map pyLower).toFinset⟩).card =
      (texts.map pyLower).toFinset.card := by
    unfold recordRows
    exact Finset.card_image_of_injective _ (fun a b hab => congrArg Prod.fst hab)
  refine ⟨⟨pyLower g, (texts.map pyLower).toFinset⟩, hpd, rfl, rfl, ?_, hcard,
    ?_, ?_, ?_⟩
  · unfold drugRows
    rw [hpd]
  · intro r hr
    rcases Finset.mem_image.mp hr with ⟨b, hbmem, hbr⟩
    subst hbr
    exact ⟨rfl, hbmem⟩
  · intro b hbmem
    exact Finset.mem_image_of_mem _ hbmem
  · intro l hn hfs
    rw [← List.toFinset_card_of_nodup hn, hfs, hcard]

/-- Witness for C5 at the Ibuprofen record with the two distinct
products Advil and Motrin. -/
theorem c5_fanout_dedup_witness :
    ∃ m, parseDrug ibuprofenRecord = PDResult.ok m ∧
      m.generic_name = pyLower "Ibuprofen" ∧
      m.brand_names = ((["Advil", "Motrin"].map pyLower).toFinset) ∧
      drugRows ibuprofenRecord = recordRows m ∧
      (recordRows m).card = (["Advil", "Motrin"].map pyLower).toFinset.card ∧
      (∀ r ∈ recordRows m, r.2 = pyLower "Ibuprofen" ∧
        r.1 ∈ (["Advil", "Motrin"].map pyLower).toFinset) ∧
      (∀ b ∈ (["Advil", "Motrin"].map pyLower).toFinset,
        (b, pyLower "Ibuprofen") ∈ recordRows m) ∧
      (∀ l : List Row, l.Nodup → l.toFinset = recordRows m →
        l.length = (["Advil", "Motrin"].map pyLower).toFinset.card) := by
  apply c5_fanout_dedup ibuprofenRecord (Element.mk nsName (some "Ibuprofen") [])
    (Element.mk nsProducts none [advilProduct,
      Element.mk nsProduct none [Element.mk nsName (some "Motrin") []]])
    "Ibuprofen" ["Advil", "Motrin"] (by decide) (by decide) (by decide)
  have hfa : (Element.mk nsProducts none [advilProduct,
      Element.mk nsProduct none [Element.mk nsName (some "Motrin") []]]).findall
        nsProduct =
      [advilProduct, Element.mk nsProduct none [Element.mk nsName (some "Motrin") []]] := by
    decide
  rw [hfa]
  exact List.Forall₂.cons ⟨Element.mk nsName (some "Advil") [], by decide, by decide⟩
    (List.Forall₂.cons ⟨Element.mk nsName (some "Motrin") [], by decide, by decide⟩
      List.Forall₂.nil)

/-- C7: on an input path that does not exist or does not parse as XML,
parseFile reports the diagnostic naming the input path and stops before
any data row is written: no per-record row set exists and the CSV
content of the run is the header line alone. -/
theorem c7_unreadable_input_halts (inputFile : String) (trace : List (List Row))
    (htrace : IsTrace trace (fileRows (parseFile none inputFile))) :
    parseFile none inputFile =
      FileResult.parseError
        ("Error: could not read in data from file " ++ inputFile) ∧
    fileRows (parseFile none inputFile) = [] ∧
    csvLines trace = ["brand_name,generic_name"] := by
  refine ⟨rfl, rfl, ?_⟩
  have h0 : trace = [] := List.forall₂_nil_right_iff.mp htrace
  subst h0
  rfl

/-- Witness for C7 at a concrete path. -/
theorem c7_unreadable_input_halts_witness :
    parseFile none "rawData.xml" =
      FileResult.parseError
        ("Error: could not read in data from file " ++ "rawData.xml") ∧
    fileRows (parseFile none "rawData.xml") = [] ∧
    csvLines [] = ["brand_name,generic_name"] :=
  c7_unreadable_input_halts "rawData.xml" [] List.Forall₂.nil

theorem perm_of_nodup_toFinset_eq {α : Type} [DecidableEq α] {l1 l2 : List α}
    (h1 : l1.Nodup) (h2 : l2.Nodup) (h : l1.toFinset = l2.toFinset) :
    l1.Perm l2 := by
  rw [← Multiset.coe_eq_coe]
  exact Multiset.Nodup.toFinset_inj (Multiset.coe_nodup.mpr h1)
    (Multiset.coe_nodup.mpr h2) h

theorem list_eq_singleton_of_trace {α : Type} [DecidableEq α] (l : List α) (a : α)
    (hn : l.Nodup) (h : l.toFinset = {a}) : l = [a] :=
  List.perm_singleton.mp
    (perm_of_nodup_toFinset_eq hn (List.nodup_singleton a) (by rw [h]; simp))

/-- C8: end-to-end example.  For the document holding one record with
generic name Aspirin and the two products Bayer and bayer, every run of
the program writes exactly the header line followed by the single data
row bayer,aspirin. -/
theorem c8_end_to_end (trace : List (List Row))
    (htrace : IsTrace trace
      (fileRows (parseFile (some [aspirinRecord]) "rawData.xml"))) :
    csvLines trace = ["brand_name,generic_name", "bayer,aspirin"] := by
  have hsets : fileRows (parseFile (some [aspirinRecord]) "rawData.xml") =
      [{(("bayer", "aspirin") : Row)}] := by decide
  rw [IsTrace, hsets] at htrace
  rcases List.forall₂_cons_right_iff.mp htrace with ⟨l, trest, ⟨hn, hfs⟩, hrest, rfl⟩
  have h0 : trest = [] := List.forall₂_nil_right_iff.mp hrest
  subst h0
  have h1 : l = [(("bayer", "aspirin") : Row)] :=
    list_eq_singleton_of_trace l _ hn hfs
  subst h1
  rfl

/-- Witness for C8 at the single possible trace. -/
theorem c8_end_to_end_witness :
    csvLines [[(("bayer", "aspirin") : Row)]] =
      ["brand_name,generic_name", "bayer,aspirin"] := by
  apply c8_end_to_end
  have hsets : fileRows (parseFile (some [aspirinRecord]) "rawData.xml") =
      [{(("bayer", "aspirin") : Row)}] := by decide
  unfold IsTrace
  rw [hsets]
  exact List.Forall₂.cons (by decide) List.Forall₂.nil

theorem trace_perm_of_same_sets (sets : List (Finset Row)) :
    ∀ t1 t2, IsTrace t1 sets → IsTrace t2 sets →
      List.Forall₂ List.Perm t1 t2 := by
  induction sets with
  | nil =>
    intro t1 t2 h1 h2
    rw [List.forall₂_nil_right_iff.mp h1, List.forall₂_nil_right_iff.mp h2]
    exact List.Forall₂.nil
  | cons s rest ih =>
    intro t1 t2 h1 h2
    rcases List.forall₂_cons_right_iff.mp h1 with ⟨l1, u1, ⟨hn1, hf1⟩, hr1, rfl⟩
    rcases List.forall₂_cons_right_iff.mp h2 with ⟨l2, u2, ⟨hn2, hf2⟩, hr2, rfl⟩
    exact List.Forall₂.cons
      (perm_of_nodup_toFinset_eq hn1 hn2 (by rw [hf1, hf2]))
      (ih u1 u2 hr1 hr2)

theorem flatten_perm_of_forall₂ {α : Type} {l1 l2 : List (List α)}
    (h : List.Forall₂ List.Perm l1 l2) : l1.flatten.Perm l2.flatten := by
  induction h with
  | nil => exact List.Perm.refl _
  | cons hp hrest ih => simpa using hp.append ih

/-- C10: parseFile is deterministic up to row order within a record: any
two runs over the same parsed document write rows grouped by record in
document order with the groups pairwise permutations of each other, so
the multiset of all written rows is identical across runs even though
set iteration order within one record is unspecified. -/
theorem c10_deterministic_up_to_order (parsed : Option (List Element))
    (inputFile : String) (t1 t2 : List (List Row))
    (h1 : IsTrace t1 (fileRows (parseFile parsed inputFile)))
    (h2 : IsTrace t2 (fileRows (parseFile parsed inputFile))) :
    List.Forall₂ List.Perm t1 t2 ∧
    (t1.flatten : Multiset Row) = (t2.flatten : Multiset Row) := by
  have hp := trace_perm_of_same_sets _ t1 t2 h1 h2
  exact ⟨hp, Multiset.coe_eq_coe.mpr (flatten_perm_of_forall₂ hp)⟩

/-- Witness for C10: the two enumeration orders of the Ibuprofen
record's row set produce the same multiset of rows. -/
theorem c10_deterministic_up_to_order_witness :
    List.Forall₂ List.Perm
      [[(("advil", "ibuprofen") : Row), (("motrin", "ibuprofen") : Row)]]
      [[(("motrin", "ibuprofen") : Row), (("advil", "ibuprofen") : Row)]] ∧
    (([[(("advil", "ibuprofen") : Row),
        (("motrin", "ibuprofen") : Row)]].flatten : List Row) : Multiset Row) =
      (([[(("motrin", "ibuprofen") : Row),
        (("advil", "ibuprofen") : Row)]].flatten : List Row) : Multiset Row) := by
  apply c10_deterministic_up_to_order (some [ibuprofenRecord]) "rawData.xml"
  · have hsets : fileRows (parseFile (some [ibuprofenRecord]) "rawData.xml") =
        [({(("advil", "ibuprofen") : Row), (("motrin", "ibuprofen") : Row)} :
          Finset Row)] := by decide
    unfold IsTrace
    rw [hsets]
    exact List.Forall₂.cons (by decide) List.Forall₂.nil
  · have hsets : fileRows (parseFile (some [ibuprofenRecord]) "rawData.xml") =
        [({(("advil", "ibuprofen") : Row), (("motrin", "ibuprofen") : Row)} :
          Finset Row)] := by decide
    unfold IsTrace
    rw [hsets]
    exact List.Forall₂.cons (by decide) List.Forall₂.nil

end DrugBank
